import Mathlib

/-!
Shallow embedding of `download_hsc_pipeline.py` (batch download–split–catalog
pipeline for IllustrisTNG HSC FITS imagery).

The effects of `download_and_split_hsc_images` are modelled as a trace of
`Event`s together with an optional raised `PyError`.  The external world
(remote HTTP service, filesystem removal outcome) is a parameter `World`.
Pure fragments (URL parsing, batch slicing, filename templates, the
`object_id` encoding, API-key resolution) are modelled as Lean functions
translated line by line from the source.
-/

namespace HSC

/-- One header-data unit of a FITS container.  We keep the `EXTNAME` header
field (the empty string when the header key is absent, mirroring
`h.header.get('EXTNAME','')`) and an opaque data payload. -/
structure HDU where
  extname : String
  payload : Nat
  deriving DecidableEq, Repr

/-- A downloaded parent container, as opened by `fits.open`: its list of HDUs. -/
abbrev ParentFile := List HDU

/-- The external world: `fetch url` is `some hdul` when the HTTP GET for `url`
succeeds (2xx) with body `hdul`, and `none` when `raise_for_status()` raises;
`removeOk path` tells whether `os.remove path` succeeds. -/
structure World where
  fetch : String → Option ParentFile
  removeOk : String → Bool

/-- The keyword arguments of `download_and_split_hsc_images`. -/
structure Config where
  split_output_dir : String
  BATCH_START : Option Nat
  BATCH_SIZE : Option Nat
  remove_parent : Bool
  catalog_path : Option String
  parent_file_only : Bool
  parent_output_dir : Option String
  deriving Repr

/-- One accumulated catalog row (a dict appended to `catalog_entries`). -/
structure CatalogRow where
  object_id : Int
  filename : String
  filter : String
  deriving DecidableEq, Repr

/-- Observable side effects of one pipeline invocation, in order. -/
inductive Event where
  | madeDir (path : String)
  | fetched (url : String)
  | wroteParent (path : String)
  | warnNoExt (extname : String) (parent : String)
  | wroteSplit (path : String)
  | removedParent (path : String)
  | warnRemoveFailed (path : String)
  | warnEmptyBatch
  | wroteCatalog (path : String) (colNames : List String) (rows : List CatalogRow)
      (overwrite : Bool)
  deriving DecidableEq, Repr

/-- Exceptions the pipeline body can raise. -/
inductive PyError where
  | indexError
  | httpError (url : String)
  | valueError (s : String)
  deriving DecidableEq, Repr

/-- Result of a pipeline invocation: the emitted trace and, when the body
raised, the exception (`none` means the call returned normally). -/
structure RunResult where
  events : List Event
  error : Option PyError
  deriving DecidableEq, Repr

/-- Python truthiness of an optional string (`if catalog_path:`):
`None` and `''` are falsy. -/
def truthy (o : Option String) : Bool :=
  match o with
  | none => false
  | some s => !(s == "")

/-- Python `a or b` on an optional string vs. a default string
(`parent_output_dir or split_output_dir`). -/
def orDefault (a : Option String) (b : String) : String :=
  match a with
  | some s => if s == "" then b else s
  | none => b

/-- `os.path.join` for a directory and a relative filename. -/
def pathJoin (d f : String) : String := d ++ "/" ++ f

/-- Leftmost match of the regex `(v\d+)` in a character list: the first
position holding `'v'` followed by at least one digit yields `'v'` plus the
maximal digit run; otherwise the scan continues to the right. -/
def vSearch (cs : List Char) : Option (List Char) :=
  match cs with
  | [] => none
  | c :: rest =>
    if c = 'v' then
      let ds := rest.takeWhile Char.isDigit
      if ds = [] then vSearch rest else some (c :: ds)
    else vSearch rest

/-- `re.search(r'(v\d+)', fn)`, returning the matched group as a string. -/
def searchVersion (fn : String) : Option String :=
  (vSearch fn.data).map (fun cs => String.mk cs)

/-- Python `str.split(sep)` for a one-character separator, over the character
list: splits at every occurrence, keeping empty fields, and yields one field
even for the empty string. -/
def splitChar (sep : Char) : List Char → List (List Char)
  | [] => [[]]
  | c :: rest =>
    let r := splitChar sep rest
    if c = sep then [] :: r
    else
      match r with
      | [] => [[c]]
      | g :: gs => (c :: g) :: gs

/-- `u.split('/')` as a list of strings. -/
def pySplitSlash (u : String) : List String :=
  (splitChar '/' u.data).map (fun cs => String.mk cs)

/-- `parse_url`: split the locator on `'/'`, read path components 6 and 8
(snapshot, subhalo) and the version tag from the final segment, with the
sentinel `"v?"` when the pattern is absent.  `none` models the `IndexError`
raised when the locator has fewer than 9 components. -/
def parse_url (u : String) : Option (String × String × String) :=
  match (pySplitSlash u)[6]?, (pySplitSlash u)[8]? with
  | some snapshot, some subhalo =>
    some (snapshot, subhalo,
      (searchVersion ((pySplitSlash u).getLast?.getD "")).getD "v?")
  | _, _ => none

/-- `f'{snapshot}_{subhalo}_{version}_parent.fits'` -/
def parentFname (snapshot subhalo version : String) : String :=
  snapshot ++ "_" ++ subhalo ++ "_" ++ version ++ "_parent.fits"

/-- `f'{snapshot}_{subhalo}_{filt}_{version}_hsc_realistic.fits'` -/
def splitFname (snapshot subhalo filt version : String) : String :=
  snapshot ++ "_" ++ subhalo ++ "_" ++ filt ++ "_" ++ version ++ "_hsc_realistic.fits"

/-- The fixed closed set of band names, in source order. -/
def bandNames : List String := ["G", "R", "I", "Z", "Y"]

/-- `next((h for h in hdul if h.header.get('EXTNAME','') == target_ext), None)` -/
def findExt (hdul : ParentFile) (target : String) : Option HDU :=
  hdul.find? (fun h => h.extname == target)

/-- Value of one decimal digit character. -/
def digitVal (c : Char) : Option Nat :=
  if c.isDigit then some (c.toNat - 48) else none

/-- Accumulate a decimal numeral; `none` on the first non-digit. -/
def natOfDigitsAux : List Char → Nat → Option Nat
  | [], acc => some acc
  | c :: rest, acc =>
    match digitVal c with
    | none => none
    | some d => natOfDigitsAux rest (acc * 10 + d)

/-- Read a non-empty all-digit character list as a natural number. -/
def natOfDigits (cs : List Char) : Option Nat :=
  match cs with
  | [] => none
  | _ => natOfDigitsAux cs 0

/-- Python `int(s)` on the strings pulled from the URL: an optional sign
followed by decimal digits; `none` models the `ValueError` raised on any
other shape. -/
def pyInt (s : String) : Option Int :=
  match s.data with
  | '-' :: rest => (natOfDigits rest).map (fun n => -(n : Int))
  | '+' :: rest => (natOfDigits rest).map (fun n => (n : Int))
  | cs => (natOfDigits cs).map (fun n => (n : Int))

/-- The catalog `object_id`: `int(snapshot) * 1000000 + int(subhalo)`. -/
def mkObjectId (snapshot_id subhalo_id : Int) : Int :=
  snapshot_id * 1000000 + subhalo_id

/-- Decoding direction of the `object_id` encoding: `object_id // 1_000_000`
(Python floor division; the divisor is positive so `Int.ediv` agrees). -/
def decodeSnapshot (object_id : Int) : Int := Int.ediv object_id 1000000

/-- Decoding direction of the `object_id` encoding: `object_id % 1_000_000`
(Python modulo; the divisor is positive so `Int.emod` agrees). -/
def decodeSubhalo (object_id : Int) : Int := Int.emod object_id 1000000

/-- `strip` of one line of the URL-list file: drop whitespace from both ends. -/
def stripLine (s : String) : String :=
  String.mk (((s.data.dropWhile Char.isWhitespace).reverse.dropWhile Char.isWhitespace).reverse)

/-- `urls = [u.strip() for u in f if u.strip()]` -/
def loadUrls (lines : List String) : List String :=
  lines.filterMap (fun u => if stripLine u == "" then none else some (stripLine u))

/-- Batch selection: `urls[BATCH_START:]` when `BATCH_SIZE is None`, else
`urls[BATCH_START : BATCH_START + BATCH_SIZE]` (non-negative indices). -/
def selectBatch (urls : List String) (start : Nat) (size : Option Nat) : List String :=
  match size with
  | none => urls.drop start
  | some n => (urls.drop start).take n

/-- The directory receiving parent files: `parent_output_dir or split_output_dir`. -/
def parentDirOf (cfg : Config) : String :=
  orDefault cfg.parent_output_dir cfg.split_output_dir

/-- The `os.makedirs` calls issued before the batch is examined. -/
def dirEvents (cfg : Config) : List Event :=
  Event.madeDir (parentDirOf cfg) ::
    (if cfg.parent_file_only then [] else [Event.madeDir cfg.split_output_dir])

/-- The inner `for filt in ['G','R','I','Z','Y']` loop over one opened parent
container: looks each band's extension up by `EXTNAME`, warns and continues
when absent, writes the split file when present, and (when a catalog is being
accumulated) appends one row per written split file.  Returns the extended
trace, the extended accumulator, and the `ValueError` raised when `int()`
fails on the snapshot or subhalo component. -/
def splitBands (cfg : Config) (snapshot subhalo version fname_parent : String)
    (hdul : ParentFile) (bands : List String)
    (events : List Event) (entries : Option (List CatalogRow)) :
    List Event × Option (List CatalogRow) × Option PyError :=
  match bands with
  | [] => (events, entries, none)
  | filt :: rest =>
    let target := "SUBARU_HSC." ++ filt
    match findExt hdul target with
    | none =>
      splitBands cfg snapshot subhalo version fname_parent hdul rest
        (events ++ [Event.warnNoExt target fname_parent]) entries
    | some _ =>
      let out_name := splitFname snapshot subhalo filt version
      let out_path := pathJoin cfg.split_output_dir out_name
      let events2 := events ++ [Event.wroteSplit out_path]
      match entries with
      | none =>
        splitBands cfg snapshot subhalo version fname_parent hdul rest events2 none
      | some es =>
        match pyInt snapshot with
        | none => (events2, some es, some (PyError.valueError snapshot))
        | some si =>
          match pyInt subhalo with
          | none => (events2, some es, some (PyError.valueError subhalo))
          | some hi =>
            let row : CatalogRow := ⟨mkObjectId si hi, out_name, filt⟩
            splitBands cfg snapshot subhalo version fname_parent hdul rest
              events2 (some (es ++ [row]))

/-- The optional `os.remove(parent_path)` step with its caught `OSError`. -/
def cleanupEvents (cfg : Config) (w : World) (parent_path : String) : List Event :=
  if cfg.remove_parent then
    if w.removeOk parent_path then [Event.removedParent parent_path]
    else [Event.warnRemoveFailed parent_path]
  else []

/-- The catalog names passed to `Table(rows=..., names=...)`. -/
def catalogColNames : List String := ["object_id", "filename", "filter"]

/-- The final `table.write(catalog_path, overwrite=True)`, guarded by
`catalog_entries is not None and not parent_file_only`. -/
def writeCatalogEvents (cfg : Config) (entries : Option (List CatalogRow)) : List Event :=
  match entries with
  | none => []
  | some es =>
    if cfg.parent_file_only then []
    else [Event.wroteCatalog (cfg.catalog_path.getD "") catalogColNames es true]

/-- The `for url in batch:` loop followed by the final catalog write.
Each item is parsed, fetched (a non-2xx status raising `HTTPError`), written
to disk, split unless `parent_file_only`, and optionally cleaned up. -/
def processBatch (cfg : Config) (w : World) (batch : List String)
    (events : List Event) (entries : Option (List CatalogRow)) : RunResult :=
  match batch with
  | [] => { events := events ++ writeCatalogEvents cfg entries, error := none }
  | url :: rest =>
    match parse_url url with
    | none => { events := events, error := some PyError.indexError }
    | some (snapshot, subhalo, version) =>
      let fname_parent := parentFname snapshot subhalo version
      let parent_path := pathJoin (parentDirOf cfg) fname_parent
      match w.fetch url with
      | none => { events := events, error := some (PyError.httpError url) }
      | some hdul =>
        let events2 := events ++ [Event.fetched url, Event.wroteParent parent_path]
        if cfg.parent_file_only then
          processBatch cfg w rest events2 entries
        else
          match splitBands cfg snapshot subhalo version fname_parent hdul bandNames
              events2 entries with
          | (events3, _, some e) => { events := events3, error := some e }
          | (events3, entries3, none) =>
            processBatch cfg w rest (events3 ++ cleanupEvents cfg w parent_path) entries3

/-- `download_and_split_hsc_images`, as a function from the configuration,
the external world and the lines of the URL-list file to the run trace. -/
def download_and_split_hsc_images (cfg : Config) (w : World)
    (lines : List String) : RunResult :=
  let de := dirEvents cfg
  let urls := loadUrls lines
  let start := cfg.BATCH_START.getD 0
  let batch := selectBatch urls start cfg.BATCH_SIZE
  if batch = [] then
    { events := de ++ [Event.warnEmptyBatch], error := none }
  else
    processBatch cfg w batch de
      (if truthy cfg.catalog_path then some [] else none)

/-- `_resolve_api_key`: `explicit or os.environ.get('TNG_API_KEY')`, raising
`SystemExit` when the result is falsy.  `envKey` is the environment lookup
(`none` when unset, `some ""` when set to the empty string). -/
def resolve_api_key (explicit envKey : Option String) : Except String String :=
  let api_key := match explicit with
    | some s => if s == "" then envKey else some s
    | none => envKey
  match api_key with
  | none => Except.error "requires an API key"
  | some k => if k == "" then Except.error "requires an API key" else Except.ok k

/-- The length of a Python slice `urls[start:start+size]` (or `urls[start:]`),
as the spec states it: `max(0, min(size or unbounded, total - start))` when
`start < total`, else `0`. -/
def specBatchLength (total start : Nat) (size : Option Nat) : Nat :=
  if start < total then
    match size with
    | none => total - start
    | some n => min n (total - start)
  else 0

/-- Event classifier: is this event the catalog-table write? -/
def isCatalogWrite : Event → Bool
  | Event.wroteCatalog _ _ _ _ => true
  | _ => false

/-- Event classifier: is this event a remote fetch? -/
def isFetch : Event → Bool
  | Event.fetched _ => true
  | _ => false

/-- Event classifier: is this event a split-image write? -/
def isSplitWrite : Event → Bool
  | Event.wroteSplit _ => true
  | _ => false

/-- No band of the fixed set has a matching extension in the container. -/
def noBandExts (hd : ParentFile) : Bool :=
  bandNames.all (fun filt => (findExt hd ("SUBARU_HSC." ++ filt)).isNone)

/-- Configuration with the source's default keyword arguments and no catalog,
used for the concrete parsing/naming scenario. -/
def cfgScenario : Config where
  split_output_dir := "split_images"
  BATCH_START := none
  BATCH_SIZE := none
  remove_parent := false
  catalog_path := none
  parent_file_only := false
  parent_output_dir := none

/-- Configuration requesting a catalog at `cat.fits`. -/
def cfgCat : Config where
  split_output_dir := "split_images"
  BATCH_START := none
  BATCH_SIZE := none
  remove_parent := false
  catalog_path := some "cat.fits"
  parent_file_only := false
  parent_output_dir := none

/-- A world whose remote serves a container holding only the `G` band. -/
def wOnlyG : World where
  fetch := fun _ => some [⟨"SUBARU_HSC.G", 0⟩]
  removeOk := fun _ => true

/-- A world whose remote answers every request with a non-success status. -/
def wDown : World where
  fetch := fun _ => none
  removeOk := fun _ => true

/-- A world whose remote serves a container with no band extensions at all. -/
def wNoBands : World where
  fetch := fun _ => some [⟨"OTHER", 0⟩]
  removeOk := fun _ => true

/-- A well-formed versioned locator used in concrete runs. -/
def urlV2 : String := "a/b/c/d/e/f/72/g/0/skirt_images_hsc_realistic_v2.fits"

end HSC

namespace HSC

section Claims

/-! ### Step lemmas for the main loop -/

theorem processBatch_parsefail (cfg : Config) (w : World) (url : String)
    (rest : List String) (events : List Event) (entries : Option (List CatalogRow))
    (hp : parse_url url = none) :
    processBatch cfg w (url :: rest) events entries
      = ⟨events, some PyError.indexError⟩ := by
  rw [processBatch, hp]

theorem processBatch_fetchfail (cfg : Config) (w : World) (url : String)
    (rest : List String) (events : List Event) (entries : Option (List CatalogRow))
    (snapshot subhalo version : String)
    (hp : parse_url url = some (snapshot, subhalo, version))
    (hf : w.fetch url = none) :
    processBatch cfg w (url :: rest) events entries
      = ⟨events, some (PyError.httpError url)⟩ := by
  rw [processBatch, hp]
  simp only []
  rw [hf]

theorem processBatch_cons_success (cfg : Config) (w : World) (url : String)
    (rest : List String) (events : List Event) (entries : Option (List CatalogRow))
    (snapshot subhalo version : String) (hdul : ParentFile)
    (hp : parse_url url = some (snapshot, subhalo, version))
    (hf : w.fetch url = some hdul)
    (hpo : cfg.parent_file_only = false)
    (δ : List Event) (entries2 : Option (List CatalogRow))
    (hsb : splitBands cfg snapshot subhalo version (parentFname snapshot subhalo version) hdul
        bandNames
        (events ++ [Event.fetched url,
          Event.wroteParent (pathJoin (parentDirOf cfg) (parentFname snapshot subhalo version))])
        entries
      = (δ, entries2, none)) :
    processBatch cfg w (url :: rest) events entries
      = processBatch cfg w rest
          (δ ++ cleanupEvents cfg w (pathJoin (parentDirOf cfg) (parentFname snapshot subhalo version)))
          entries2 := by
  rw [processBatch, hp]
  simp only [hf, hpo, Bool.false_eq_true, if_false]
  rw [hsb]

theorem processBatch_cons_splitfail (cfg : Config) (w : World) (url : String)
    (rest : List String) (events : List Event) (entries : Option (List CatalogRow))
    (snapshot subhalo version : String) (hdul : ParentFile)
    (hp : parse_url url = some (snapshot, subhalo, version))
    (hf : w.fetch url = some hdul)
    (hpo : cfg.parent_file_only = false)
    (δ : List Event) (entries2 : Option (List CatalogRow)) (e : PyError)
    (hsb : splitBands cfg snapshot subhalo version (parentFname snapshot subhalo version) hdul
        bandNames
        (events ++ [Event.fetched url,
          Event.wroteParent (pathJoin (parentDirOf cfg) (parentFname snapshot subhalo version))])
        entries
      = (δ, entries2, some e)) :
    processBatch cfg w (url :: rest) events entries = ⟨δ, some e⟩ := by
  rw [processBatch, hp]
  simp only [hf, hpo, Bool.false_eq_true, if_false]
  rw [hsb]

/-! ### Shape lemmas for the band-splitting loop -/

theorem splitBands_no_matching_ext (cfg : Config)
    (snapshot subhalo version fname_parent : String) (hdul : ParentFile) :
    ∀ (bands : List String) (events : List Event) (entries : Option (List CatalogRow)),
    (∀ filt ∈ bands, findExt hdul ("SUBARU_HSC." ++ filt) = none) →
    splitBands cfg snapshot subhalo version fname_parent hdul bands events entries
      = (events ++ bands.map (fun filt => Event.warnNoExt ("SUBARU_HSC." ++ filt) fname_parent),
         entries, none) := by
  intro bands
  induction bands with
  | nil => intro events entries _; simp [splitBands]
  | cons filt rest ih =>
    intro events entries hnb
    have h0 : findExt hdul ("SUBARU_HSC." ++ filt) = none := hnb filt (by simp)
    have hrec := ih (events ++ [Event.warnNoExt ("SUBARU_HSC." ++ filt) fname_parent]) entries
      (fun f hf => hnb f (List.mem_cons_of_mem _ hf))
    rw [splitBands, h0]
    simp only []
    rw [hrec]
    simp

theorem splitBands_shape_some (cfg : Config)
    (snapshot subhalo version fname_parent : String) (hdul : ParentFile) :
    ∀ (bands : List String) (events : List Event) (es : List CatalogRow),
    ∃ δ es2 err,
      splitBands cfg snapshot subhalo version fname_parent hdul bands events (some es)
        = (events ++ δ, some es2, err) ∧
      ∀ e ∈ δ, isCatalogWrite e = false := by
  intro bands
  induction bands with
  | nil =>
    intro events es
    exact ⟨[], es, none, by simp [splitBands], by simp⟩
  | cons filt rest ih =>
    intro events es
    cases hfind : findExt hdul ("SUBARU_HSC." ++ filt) with
    | none =>
      obtain ⟨δ, es2, err, heq, hnc⟩ :=
        ih (events ++ [Event.warnNoExt ("SUBARU_HSC." ++ filt) fname_parent]) es
      refine ⟨Event.warnNoExt ("SUBARU_HSC." ++ filt) fname_parent :: δ, es2, err, ?_, ?_⟩
      · rw [splitBands, hfind]
        simp only []
        rw [heq]
        simp
      · intro e he
        rcases List.mem_cons.mp he with rfl | he2
        · rfl
        · exact hnc e he2
    | some hdu =>
      cases hsi : pyInt snapshot with
      | none =>
        refine ⟨[Event.wroteSplit (pathJoin cfg.split_output_dir
            (splitFname snapshot subhalo filt version))], es,
          some (PyError.valueError snapshot), ?_, ?_⟩
        · rw [splitBands, hfind]
          simp only []
          rw [hsi]
        · intro e he
          rcases List.mem_singleton.mp he with rfl
          rfl
      | some si =>
        cases hhi : pyInt subhalo with
        | none =>
          refine ⟨[Event.wroteSplit (pathJoin cfg.split_output_dir
              (splitFname snapshot subhalo filt version))], es,
            some (PyError.valueError subhalo), ?_, ?_⟩
          · rw [splitBands, hfind]
            simp only []
            rw [hsi]
            simp only []
            rw [hhi]
          · intro e he
            rcases List.mem_singleton.mp he with rfl
            rfl
        | some hi =>
          obtain ⟨δ, es2, err, heq, hnc⟩ :=
            ih (events ++ [Event.wroteSplit (pathJoin cfg.split_output_dir
                (splitFname snapshot subhalo filt version))])
              (es ++ [⟨mkObjectId si hi, splitFname snapshot subhalo filt version, filt⟩])
          refine ⟨Event.wroteSplit (pathJoin cfg.split_output_dir
              (splitFname snapshot subhalo filt version)) :: δ, es2, err, ?_, ?_⟩
          · rw [splitBands, hfind]
            simp only []
            rw [hsi]
            simp only []
            rw [hhi]
            simp only []
            rw [heq]
            simp
          · intro e he
            rcases List.mem_cons.mp he with rfl | he2
            · rfl
            · exact hnc e he2

theorem cleanupEvents_no_catalog (cfg : Config) (w : World) (p : String) :
    ∀ e ∈ cleanupEvents cfg w p, isCatalogWrite e = false := by
  intro e he
  unfold cleanupEvents at he
  by_cases h1 : cfg.remove_parent
  · simp only [h1, if_true] at he
    by_cases h2 : w.removeOk p
    · simp only [h2, if_true] at he
      rcases List.mem_singleton.mp he with rfl
      rfl
    · simp only [h2, Bool.false_eq_true, if_false] at he
      rcases List.mem_singleton.mp he with rfl
      rfl
  · simp only [h1, Bool.false_eq_true, if_false] at he
    exact absurd he (List.not_mem_nil e)

/-! ### Batch selection (C3) -/

theorem selectBatch_eq_drop_take (urls : List String) (start : Nat) (size : Option Nat) :
    selectBatch urls start size = (urls.drop start).take (size.getD urls.length) := by
  cases size with
  | none =>
    simp only [selectBatch, Option.getD]
    exact (List.take_of_length_le (by simp)).symm
  | some n => rfl

theorem selectBatch_length (urls : List String) (start : Nat) (size : Option Nat) :
    (selectBatch urls start size).length = specBatchLength urls.length start size := by
  cases size with
  | none =>
    simp [selectBatch, specBatchLength]
    split <;> omega
  | some n =>
    simp [selectBatch, specBatchLength]
    split <;> omega

theorem selectBatch_out_of_range (urls : List String) (start : Nat) (size : Option Nat)
    (h : urls.length ≤ start) : selectBatch urls start size = [] := by
  cases size with
  | none => simp [selectBatch, List.drop_of_length_le h]
  | some n => simp [selectBatch, List.drop_of_length_le h]

/-- C3: for every URL list, every non-negative start, and every size that is a
positive integer or `None` (meaning to end of sequence), the selected batch is
the contiguous slice `[start, start+size)` clipped to the list, its length is
`max(0, min(size or unbounded, total - start))` when `start < total` and `0`
otherwise, and an out-of-range start yields an empty batch, not an error. -/
theorem selection_window_spec (urls : List String) (start : Nat) (size : Option Nat)
    (_hpos : ∀ n, size = some n → 0 < n) :
    selectBatch urls start size = (urls.drop start).take (size.getD urls.length) ∧
    (selectBatch urls start size).length = specBatchLength urls.length start size ∧
    (urls.length ≤ start → selectBatch urls start size = []) :=
  ⟨selectBatch_eq_drop_take urls start size,
   selectBatch_length urls start size,
   fun h => selectBatch_out_of_range urls start size h⟩

/-- Witness for C3 at the spec's own scenario: a list of 3 URLs with
`start = 1`, `size = 1`. -/
theorem selection_window_spec_witness :
    (∀ n, (some 1 : Option Nat) = some n → 0 < n) ∧
    (selectBatch ["a", "b", "c"] 1 (some 1)
        = ((["a", "b", "c"] : List String).drop 1).take ((some 1).getD (["a", "b", "c"] : List String).length) ∧
     (selectBatch ["a", "b", "c"] 1 (some 1)).length
        = specBatchLength (["a", "b", "c"] : List String).length 1 (some 1) ∧
     ((["a", "b", "c"] : List String).length ≤ 1 → selectBatch ["a", "b", "c"] 1 (some 1) = [])) :=
  ⟨fun n h => by injection h with h2; omega,
   selection_window_spec ["a", "b", "c"] 1 (some 1) (fun n h => by injection h with h2; omega)⟩

/-- C2: the catalog `object_id` encoding `snapshot_id * 1_000_000 + subhalo_id`
round-trips losslessly for every `snapshot_id` and every `subhalo_id` in
`[0, 999_999]`: floor division by `1_000_000` recovers the snapshot and the
remainder recovers the subhalo. -/
theorem object_id_roundtrip (snapshot_id subhalo_id : Int)
    (h0 : 0 ≤ subhalo_id) (h1 : subhalo_id ≤ 999999) :
    decodeSnapshot (mkObjectId snapshot_id subhalo_id) = snapshot_id ∧
    decodeSubhalo (mkObjectId snapshot_id subhalo_id) = subhalo_id := by
  have hmod0 : 0 ≤ mkObjectId snapshot_id subhalo_id % 1000000 :=
    Int.emod_nonneg _ (by norm_num)
  have hmod1 : mkObjectId snapshot_id subhalo_id % 1000000 < 1000000 :=
    Int.emod_lt_of_pos _ (by norm_num)
  have heq : 1000000 * (mkObjectId snapshot_id subhalo_id / 1000000)
      + mkObjectId snapshot_id subhalo_id % 1000000 = mkObjectId snapshot_id subhalo_id :=
    Int.ediv_add_emod _ _
  have hdiv : decodeSnapshot (mkObjectId snapshot_id subhalo_id)
      = mkObjectId snapshot_id subhalo_id / 1000000 := rfl
  have hrem : decodeSubhalo (mkObjectId snapshot_id subhalo_id)
      = mkObjectId snapshot_id subhalo_id % 1000000 := rfl
  rw [hdiv, hrem]
  unfold mkObjectId at heq ⊢
  constructor <;> omega

/-- Witness for C2 at `snapshot_id = 72`, `subhalo_id = 5`. -/
theorem object_id_roundtrip_witness :
    (0 : Int) ≤ 5 ∧ (5 : Int) ≤ 999999 ∧
    (decodeSnapshot (mkObjectId 72 5) = 72 ∧ decodeSubhalo (mkObjectId 72 5) = 5) :=
  ⟨by decide, by decide, object_id_roundtrip 72 5 (by decide) (by decide)⟩

/-- C5: the locator with snapshot `72` at path component 6, subhalo `0` at
component 8 and final segment `skirt_images_hsc_realistic_v2.fits` parses to
`("72", "0", "v2")`; the parent filename is `72_0_v2_parent.fits`; and when
band `G` has a matching extension, the splitter writes
`72_0_G_v2_hsc_realistic.fits` (warning on the four absent bands). -/
theorem scenario_locator_parse :
    parse_url "http://www.tng-project.org/api/TNG50-1/files/72/skirt/0/skirt_images_hsc_realistic_v2.fits"
      = some ("72", "0", "v2") ∧
    parentFname "72" "0" "v2" = "72_0_v2_parent.fits" ∧
    splitFname "72" "0" "G" "v2" = "72_0_G_v2_hsc_realistic.fits" ∧
    splitBands cfgScenario "72" "0" "v2" (parentFname "72" "0" "v2")
        [⟨"SUBARU_HSC.G", 0⟩] bandNames [] none
      = ([Event.wroteSplit (pathJoin "split_images" "72_0_G_v2_hsc_realistic.fits"),
          Event.warnNoExt "SUBARU_HSC.R" "72_0_v2_parent.fits",
          Event.warnNoExt "SUBARU_HSC.I" "72_0_v2_parent.fits",
          Event.warnNoExt "SUBARU_HSC.Z" "72_0_v2_parent.fits",
          Event.warnNoExt "SUBARU_HSC.Y" "72_0_v2_parent.fits"], none, none) := by
  refine ⟨by decide, rfl, rfl, by decide⟩

/-- C4 counterexample: the locator `skirt_images_hsc_realistic.fits` has no
`v<digits>` substring in its final (only) path segment, yet the Locator
Parser does not return the sentinel: it fails (`IndexError` on path
component 6), modelled as `none`. -/
theorem version_fallback_counterexample :
    searchVersion ((pySplitSlash "skirt_images_hsc_realistic.fits").getLast?.getD "") = none ∧
    parse_url "skirt_images_hsc_realistic.fits" = none := by
  decide

/-- C4 (amended): for every source locator with at least nine slash-separated
path components whose final segment contains no substring matching
`v<digits>`, the Locator Parser does not fail: it returns `format_version`
equal to the sentinel `"v?"`, and the derived parent and split filenames
contain `v?` verbatim. -/
theorem version_fallback_sentinel (u : String)
    (hlen : 8 < (pySplitSlash u).length)
    (hnov : searchVersion ((pySplitSlash u).getLast?.getD "") = none) :
    ∃ snapshot subhalo, parse_url u = some (snapshot, subhalo, "v?") ∧
      (∃ a b, parentFname snapshot subhalo "v?" = a ++ "v?" ++ b) ∧
      ∀ filt, ∃ a b, splitFname snapshot subhalo filt "v?" = a ++ "v?" ++ b := by
  obtain ⟨s6, h6⟩ : ∃ x, (pySplitSlash u)[6]? = some x :=
    ⟨_, List.getElem?_eq_getElem (by omega)⟩
  obtain ⟨s8, h8⟩ : ∃ x, (pySplitSlash u)[8]? = some x :=
    ⟨_, List.getElem?_eq_getElem (by omega)⟩
  refine ⟨s6, s8, ?_, ⟨s6 ++ "_" ++ s8 ++ "_", "_parent.fits", rfl⟩,
    fun filt => ⟨s6 ++ "_" ++ s8 ++ "_" ++ filt ++ "_", "_hsc_realistic.fits", rfl⟩⟩
  unfold parse_url
  rw [h6, h8, hnov]
  rfl

/-- Witness for C4 (amended) at a ten-component locator without a version tag. -/
theorem version_fallback_sentinel_witness :
    8 < (pySplitSlash "a/b/c/d/e/f/72/g/0/skirt_images_hsc_realistic.fits").length ∧
    searchVersion ((pySplitSlash "a/b/c/d/e/f/72/g/0/skirt_images_hsc_realistic.fits").getLast?.getD "") = none ∧
    (∃ snapshot subhalo,
      parse_url "a/b/c/d/e/f/72/g/0/skirt_images_hsc_realistic.fits" = some (snapshot, subhalo, "v?") ∧
      (∃ a b, parentFname snapshot subhalo "v?" = a ++ "v?" ++ b) ∧
      ∀ filt, ∃ a b, splitFname snapshot subhalo filt "v?" = a ++ "v?" ++ b) :=
  ⟨by decide, by decide,
   version_fallback_sentinel "a/b/c/d/e/f/72/g/0/skirt_images_hsc_realistic.fits" (by decide) (by decide)⟩

/-- C10: when the explicit API key is `None` or empty, resolution falls back
to the `TNG_API_KEY` environment variable; when that is also unset or empty,
the call raises `SystemExit`, and otherwise it returns the (non-empty)
environment value. -/
theorem api_key_resolution (explicit envKey : Option String)
    (habs : explicit = none ∨ explicit = some "") :
    ((envKey = none ∨ envKey = some "") →
      resolve_api_key explicit envKey = Except.error "requires an API key") ∧
    (∀ k, envKey = some k → k ≠ "" → resolve_api_key explicit envKey = Except.ok k) := by
  constructor
  · rintro (rfl | rfl) <;> rcases habs with rfl | rfl <;> rfl
  · rintro k rfl hk
    rcases habs with rfl | rfl <;> simp [resolve_api_key, hk]

/-- Witness for C10: explicit key absent, environment key `"secret"`. -/
theorem api_key_resolution_witness :
    ((none : Option String) = none ∨ (none : Option String) = some "") ∧
    resolve_api_key none (some "secret") = Except.ok "secret" :=
  ⟨Or.inl rfl,
   (api_key_resolution none (some "secret") (Or.inl rfl)).2 "secret" rfl (by decide)⟩

/-! ### Whole-batch trace lemmas -/

theorem processBatch_catalog_trace (cfg : Config) (w : World)
    (hpo : cfg.parent_file_only = false) :
    ∀ (batch : List String) (events : List Event) (es : List CatalogRow),
    (processBatch cfg w batch events (some es)).error = none →
    ∃ δ rows,
      (processBatch cfg w batch events (some es)).events
        = events ++ δ
            ++ [Event.wroteCatalog (cfg.catalog_path.getD "") catalogColNames rows true] ∧
      ∀ e ∈ δ, isCatalogWrite e = false := by
  intro batch
  induction batch with
  | nil =>
    intro events es _
    refine ⟨[], es, ?_, by simp⟩
    simp [processBatch, writeCatalogEvents, hpo]
  | cons url rest ih =>
    intro events es herr
    cases hp : parse_url url with
    | none =>
      rw [processBatch_parsefail cfg w url rest events (some es) hp] at herr
      simp at herr
    | some t =>
      obtain ⟨snapshot, subhalo, version⟩ := t
      cases hf : w.fetch url with
      | none =>
        rw [processBatch_fetchfail cfg w url rest events (some es)
          snapshot subhalo version hp hf] at herr
        simp at herr
      | some hdul =>
        obtain ⟨δ0, es2, err, hsb, hnc0⟩ :=
          splitBands_shape_some cfg snapshot subhalo version
            (parentFname snapshot subhalo version) hdul bandNames
            (events ++ [Event.fetched url,
              Event.wroteParent (pathJoin (parentDirOf cfg) (parentFname snapshot subhalo version))])
            es
        cases err with
        | some e =>
          rw [processBatch_cons_splitfail cfg w url rest events (some es)
            snapshot subhalo version hdul hp hf hpo _ _ e hsb] at herr
          simp at herr
        | none =>
          have hstep := processBatch_cons_success cfg w url rest events (some es)
            snapshot subhalo version hdul hp hf hpo _ _ hsb
          rw [hstep] at herr ⊢
          obtain ⟨δ1, rows, hev, hnc1⟩ := ih _ es2 herr
          refine ⟨Event.fetched url :: Event.wroteParent
              (pathJoin (parentDirOf cfg) (parentFname snapshot subhalo version))
              :: (δ0 ++ cleanupEvents cfg w
                  (pathJoin (parentDirOf cfg) (parentFname snapshot subhalo version)) ++ δ1),
            rows, ?_, ?_⟩
          · rw [hev]
            simp [List.append_assoc]
          · intro e he
            simp only [List.mem_cons, List.mem_append] at he
            rcases he with rfl | rfl | (he | he) | he
            · rfl
            · rfl
            · exact hnc0 e he
            · exact cleanupEvents_no_catalog cfg w _ e he
            · exact hnc1 e he

theorem processBatch_allmissing (cfg : Config) (w : World)
    (hpo : cfg.parent_file_only = false) :
    ∀ (batch : List String) (events : List Event) (es : List CatalogRow),
    (∀ u ∈ batch, (parse_url u).isSome = true ∧ Option.map noBandExts (w.fetch u) = some true) →
    ∃ δ, processBatch cfg w batch events (some es)
        = ⟨events ++ δ ++ writeCatalogEvents cfg (some es), none⟩ := by
  intro batch
  induction batch with
  | nil =>
    intro events es _
    refine ⟨[], ?_⟩
    simp [processBatch]
  | cons url rest ih =>
    intro events es hall
    obtain ⟨hps, hfb⟩ := hall url (List.mem_cons_self url rest)
    obtain ⟨t, hp⟩ := Option.isSome_iff_exists.mp hps
    obtain ⟨snapshot, subhalo, version⟩ := t
    cases hf : w.fetch url with
    | none => rw [hf] at hfb; simp at hfb
    | some hdul =>
      rw [hf] at hfb
      have hnbb : noBandExts hdul = true := by simpa using hfb
      have hnb : ∀ filt ∈ bandNames, findExt hdul ("SUBARU_HSC." ++ filt) = none := by
        intro filt hfilt
        have h2 := List.all_eq_true.mp hnbb filt hfilt
        simpa [Option.isNone_iff_eq_none] using h2
      have hsb := splitBands_no_matching_ext cfg snapshot subhalo version
        (parentFname snapshot subhalo version) hdul bandNames
        (events ++ [Event.fetched url,
          Event.wroteParent (pathJoin (parentDirOf cfg) (parentFname snapshot subhalo version))])
        (some es) hnb
      have hstep := processBatch_cons_success cfg w url rest events (some es)
        snapshot subhalo version hdul hp hf hpo _ _ hsb
      obtain ⟨δ1, hrest⟩ := ih _ es (fun u hu => hall u (List.mem_cons_of_mem _ hu))
      refine ⟨Event.fetched url :: Event.wroteParent
          (pathJoin (parentDirOf cfg) (parentFname snapshot subhalo version))
          :: (bandNames.map (fun filt =>
                Event.warnNoExt ("SUBARU_HSC." ++ filt) (parentFname snapshot subhalo version))
              ++ cleanupEvents cfg w
                  (pathJoin (parentDirOf cfg) (parentFname snapshot subhalo version)) ++ δ1), ?_⟩
      rw [hstep, hrest]
      simp [List.append_assoc]

/-! ### Claims on the whole pipeline -/

/-- C1 counterexample: a concrete run with a requested catalog and splitting
enabled persists the table with third column named `filter`, not `band`. -/
theorem catalog_band_column_counterexample :
    (download_and_split_hsc_images cfgCat wOnlyG [urlV2]).events.getLast?
      = some (Event.wroteCatalog "cat.fits" ["object_id", "filename", "filter"]
          [⟨72000000, "72_0_G_v2_hsc_realistic.fits", "G"⟩] true) ∧
    (["object_id", "filename", "filter"] : List String) ≠ ["object_id", "filename", "band"] := by
  constructor
  · decide
  · decide

/-- C1 (amended): when a catalog is requested, splitting is not bypassed, the
batch is non-empty and the run raises no error, the persisted catalog is a
single structured table (exactly one table write in the whole trace, and it
is the final effect) with exactly the three named columns
`object_id, filename, filter` in that order, overwriting any existing table
at the target path. -/
theorem catalog_single_table (cfg : Config) (w : World) (lines : List String)
    (hcat : truthy cfg.catalog_path = true)
    (hpo : cfg.parent_file_only = false)
    (hne : selectBatch (loadUrls lines) (cfg.BATCH_START.getD 0) cfg.BATCH_SIZE ≠ [])
    (herr : (download_and_split_hsc_images cfg w lines).error = none) :
    ∃ rows,
      (download_and_split_hsc_images cfg w lines).events.getLast?
        = some (Event.wroteCatalog (cfg.catalog_path.getD "") catalogColNames rows true) ∧
      ((download_and_split_hsc_images cfg w lines).events.filter isCatalogWrite).length = 1 := by
  have hd : download_and_split_hsc_images cfg w lines
      = processBatch cfg w
          (selectBatch (loadUrls lines) (cfg.BATCH_START.getD 0) cfg.BATCH_SIZE)
          (dirEvents cfg) (some []) := by
    simp [download_and_split_hsc_images, hne, hcat]
  rw [hd] at herr ⊢
  obtain ⟨δ, rows, hev, hnc⟩ := processBatch_catalog_trace cfg w hpo _ (dirEvents cfg) [] herr
  refine ⟨rows, ?_, ?_⟩
  · rw [hev]
    simp
  · rw [hev]
    rw [List.filter_append, List.filter_append]
    have h1 : (dirEvents cfg).filter isCatalogWrite = [] := by
      simp [dirEvents, hpo, isCatalogWrite]
    have h2 : δ.filter isCatalogWrite = [] := by
      rw [List.filter_eq_nil_iff]
      intro a ha
      simp [hnc a ha]
    rw [h1, h2]
    simp [isCatalogWrite]

/-- Witness for C1 (amended): one fetched container holding only band `G`. -/
theorem catalog_single_table_witness :
    truthy cfgCat.catalog_path = true ∧
    cfgCat.parent_file_only = false ∧
    selectBatch (loadUrls [urlV2]) (cfgCat.BATCH_START.getD 0) cfgCat.BATCH_SIZE ≠ [] ∧
    (download_and_split_hsc_images cfgCat wOnlyG [urlV2]).error = none ∧
    ∃ rows,
      (download_and_split_hsc_images cfgCat wOnlyG [urlV2]).events.getLast?
        = some (Event.wroteCatalog (cfgCat.catalog_path.getD "") catalogColNames rows true) ∧
      ((download_and_split_hsc_images cfgCat wOnlyG [urlV2]).events.filter isCatalogWrite).length = 1 :=
  ⟨rfl, rfl, by decide, by decide,
   catalog_single_table cfgCat wOnlyG [urlV2] rfl rfl (by decide) (by decide)⟩

/-- C6: when the resolved batch slice is empty, the pipeline emits the warning
and returns successfully with no further side effects: the trace is exactly
the directory-creation events plus the warning, so no URL is fetched, no split
file is written and no catalog is written even when a catalog path was given. -/
theorem empty_batch_clean_exit (cfg : Config) (w : World) (lines : List String)
    (h : selectBatch (loadUrls lines) (cfg.BATCH_START.getD 0) cfg.BATCH_SIZE = []) :
    download_and_split_hsc_images cfg w lines
      = ⟨dirEvents cfg ++ [Event.warnEmptyBatch], none⟩ ∧
    ∀ e ∈ (download_and_split_hsc_images cfg w lines).events,
      isFetch e = false ∧ isSplitWrite e = false ∧ isCatalogWrite e = false := by
  have h1 : download_and_split_hsc_images cfg w lines
      = ⟨dirEvents cfg ++ [Event.warnEmptyBatch], none⟩ := by
    simp [download_and_split_hsc_images, h]
  refine ⟨h1, ?_⟩
  intro e he
  rw [h1] at he
  simp only [List.mem_append, List.mem_singleton] at he
  rcases he with he | rfl
  · unfold dirEvents at he
    rcases List.mem_cons.mp he with rfl | he2
    · exact ⟨rfl, rfl, rfl⟩
    · by_cases hb : cfg.parent_file_only <;> simp [hb] at he2
      · subst he2
        exact ⟨rfl, rfl, rfl⟩
  · exact ⟨rfl, rfl, rfl⟩

/-- Witness for C6: a URL list holding a single blank line. -/
theorem empty_batch_clean_exit_witness :
    selectBatch (loadUrls ["   "]) (cfgCat.BATCH_START.getD 0) cfgCat.BATCH_SIZE = [] ∧
    (download_and_split_hsc_images cfgCat wDown ["   "]
        = ⟨dirEvents cfgCat ++ [Event.warnEmptyBatch], none⟩ ∧
     ∀ e ∈ (download_and_split_hsc_images cfgCat wDown ["   "]).events,
       isFetch e = false ∧ isSplitWrite e = false ∧ isCatalogWrite e = false) :=
  ⟨by decide, empty_batch_clean_exit cfgCat wDown ["   "] (by decide)⟩

/-- C7: a non-success HTTP status on any batch item is fatal for the whole
invocation: the loop starting at that item returns immediately with the
propagated error, adds no event (no retry, no split write), processes no
later item, and in particular never reaches the final catalog write even if
earlier items had accumulated entries. -/
theorem fetch_failure_fatal (cfg : Config) (w : World) (url : String)
    (rest : List String) (events : List Event) (entries : Option (List CatalogRow))
    (snapshot subhalo version : String)
    (hp : parse_url url = some (snapshot, subhalo, version))
    (hf : w.fetch url = none) :
    processBatch cfg w (url :: rest) events entries
      = ⟨events, some (PyError.httpError url)⟩ :=
  processBatch_fetchfail cfg w url rest events entries snapshot subhalo version hp hf

/-- Witness for C7: remote down at the first of two batch items, with entries
already accumulating. -/
theorem fetch_failure_fatal_witness :
    parse_url urlV2 = some ("72", "0", "v2") ∧
    wDown.fetch urlV2 = none ∧
    processBatch cfgCat wDown [urlV2, "u2"] [] (some [])
      = ⟨[], some (PyError.httpError urlV2)⟩ :=
  ⟨by decide, rfl,
   fetch_failure_fatal cfgCat wDown urlV2 ["u2"] [] (some []) "72" "0" "v2" (by decide) rfl⟩

/-- C8: a fetched container with no matching extension for any of the five
bands is non-fatal: the item contributes one warning per band (the loop
continues to the next band each time), adds zero catalog entries, raises no
error, and the batch continues with the remaining items. -/
theorem missing_band_warn_continue (cfg : Config) (w : World) (url : String)
    (rest : List String) (events : List Event) (entries : Option (List CatalogRow))
    (snapshot subhalo version : String) (hdul : ParentFile)
    (hp : parse_url url = some (snapshot, subhalo, version))
    (hf : w.fetch url = some hdul)
    (hpo : cfg.parent_file_only = false)
    (hnb : noBandExts hdul = true) :
    processBatch cfg w (url :: rest) events entries
      = processBatch cfg w rest
          (events
            ++ [Event.fetched url,
                Event.wroteParent (pathJoin (parentDirOf cfg) (parentFname snapshot subhalo version))]
            ++ bandNames.map (fun filt =>
                Event.warnNoExt ("SUBARU_HSC." ++ filt) (parentFname snapshot subhalo version))
            ++ cleanupEvents cfg w (pathJoin (parentDirOf cfg) (parentFname snapshot subhalo version)))
          entries := by
  have hnb2 : ∀ filt ∈ bandNames, findExt hdul ("SUBARU_HSC." ++ filt) = none := by
    intro filt hfilt
    have h2 := List.all_eq_true.mp hnb filt hfilt
    simpa [Option.isNone_iff_eq_none] using h2
  have hsb := splitBands_no_matching_ext cfg snapshot subhalo version
    (parentFname snapshot subhalo version) hdul bandNames
    (events ++ [Event.fetched url,
      Event.wroteParent (pathJoin (parentDirOf cfg) (parentFname snapshot subhalo version))])
    entries hnb2
  exact processBatch_cons_success cfg w url rest events entries
    snapshot subhalo version hdul hp hf hpo _ _ hsb

/-- Witness for C8: a container whose only extension is named `OTHER`. -/
theorem missing_band_warn_continue_witness :
    parse_url urlV2 = some ("72", "0", "v2") ∧
    wNoBands.fetch urlV2 = some [⟨"OTHER", 0⟩] ∧
    cfgCat.parent_file_only = false ∧
    noBandExts [⟨"OTHER", 0⟩] = true ∧
    processBatch cfgCat wNoBands [urlV2] [] (some [])
      = processBatch cfgCat wNoBands []
          ([]
            ++ [Event.fetched urlV2,
                Event.wroteParent (pathJoin (parentDirOf cfgCat) (parentFname "72" "0" "v2"))]
            ++ bandNames.map (fun filt =>
                Event.warnNoExt ("SUBARU_HSC." ++ filt) (parentFname "72" "0" "v2"))
            ++ cleanupEvents cfgCat wNoBands (pathJoin (parentDirOf cfgCat) (parentFname "72" "0" "v2")))
          (some []) :=
  ⟨by decide, rfl, rfl, by decide,
   missing_band_warn_continue cfgCat wNoBands urlV2 [] [] (some [])
     "72" "0" "v2" [⟨"OTHER", 0⟩] (by decide) rfl rfl (by decide)⟩

/-- C9: with a catalog requested and splitting enabled, a non-empty batch in
which no band matches in any item (every item parses and fetches, every
container lacks all five bands) still ends with the write of an empty catalog
table, and the run completes without error. -/
theorem empty_catalog_still_written (cfg : Config) (w : World) (lines : List String)
    (hcat : truthy cfg.catalog_path = true)
    (hpo : cfg.parent_file_only = false)
    (hne : selectBatch (loadUrls lines) (cfg.BATCH_START.getD 0) cfg.BATCH_SIZE ≠ [])
    (hall : ∀ u ∈ selectBatch (loadUrls lines) (cfg.BATCH_START.getD 0) cfg.BATCH_SIZE,
      (parse_url u).isSome = true ∧ Option.map noBandExts (w.fetch u) = some true) :
    (download_and_split_hsc_images cfg w lines).error = none ∧
    (download_and_split_hsc_images cfg w lines).events.getLast?
      = some (Event.wroteCatalog (cfg.catalog_path.getD "") catalogColNames [] true) := by
  have hd : download_and_split_hsc_images cfg w lines
      = processBatch cfg w
          (selectBatch (loadUrls lines) (cfg.BATCH_START.getD 0) cfg.BATCH_SIZE)
          (dirEvents cfg) (some []) := by
    simp [download_and_split_hsc_images, hne, hcat]
  obtain ⟨δ, hres⟩ := processBatch_allmissing cfg w hpo _ (dirEvents cfg) [] hall
  rw [hd, hres]
  have hw : writeCatalogEvents cfg (some [])
      = [Event.wroteCatalog (cfg.catalog_path.getD "") catalogColNames [] true] := by
    simp [writeCatalogEvents, hpo]
  refine ⟨rfl, ?_⟩
  rw [hw]
  simp

/-- Witness for C9: one item whose container has no band extensions. -/
theorem empty_catalog_still_written_witness :
    truthy cfgCat.catalog_path = true ∧
    cfgCat.parent_file_only = false ∧
    selectBatch (loadUrls [urlV2]) (cfgCat.BATCH_START.getD 0) cfgCat.BATCH_SIZE ≠ [] ∧
    (∀ u ∈ selectBatch (loadUrls [urlV2]) (cfgCat.BATCH_START.getD 0) cfgCat.BATCH_SIZE,
      (parse_url u).isSome = true ∧ Option.map noBandExts (wNoBands.fetch u) = some true) ∧
    ((download_and_split_hsc_images cfgCat wNoBands [urlV2]).error = none ∧
     (download_and_split_hsc_images cfgCat wNoBands [urlV2]).events.getLast?
       = some (Event.wroteCatalog (cfgCat.catalog_path.getD "") catalogColNames [] true)) :=
  ⟨rfl, rfl, by decide, by decide,
   empty_catalog_still_written cfgCat wNoBands [urlV2] rfl rfl (by decide) (by decide)⟩

end Claims

end HSC
